import Mathlib

/-!
Verification of the VoxInbox backend against its specification.

The development shallowly embeds the parts of the program that the claims
are about:

* `src/backend/main.py` — `check_rate_limit`, `truncate_large_result`,
  `modify_labels`, `mark_read`;
* `src/backend/realtime_proxy.py` — `OpenAIRealtimeProxy._execute_function`,
  `handle_client_message`, `handle_openai_message` (the pending-response
  flag logic), `_listen_to_openai`, `_emergency_timeout_reset`.

Python strings are modelled as `List Char` (indexing, slicing and `len`
then have their usual list meanings), JSON values as the inductive `JVal`,
and `json.dumps` (with its default separators `", "` and `": "`) as
`dumps`.  Timestamps (`time.time()`) are modelled as rationals.
-/

/-- A JSON value as produced/consumed by the backend.  Numbers are
modelled as integers (the payloads the bridge handles carry counts and
ids; floats play no role in the claims). -/
inductive JVal where
  | str (s : List Char)
  | num (n : Int)
  | bool (b : Bool)
  | null
  | arr (xs : List JVal)
  | obj (fs : List (List Char × JVal))

/-- JSON escaping of one character (`json.dumps`): quote and backslash are
escaped; other characters of the payloads in scope are emitted as-is. -/
def escChar (c : Char) : List Char :=
  if c = '"' then ['\\', '"'] else if c = '\\' then ['\\', '\\'] else [c]

/-- JSON escaping of a string body. -/
def escape (s : List Char) : List Char := s.flatMap escChar

/-- `json.dumps` of a Python string: quoted and escaped. -/
def dumpsStr (s : List Char) : List Char := '"' :: (escape s ++ ['"'])

mutual

/-- `json.dumps(v)` with Python's default separators (`", "`, `": "`). -/
def dumps : JVal → List Char
  | .str s => dumpsStr s
  | .num n => (toString n).toList
  | .bool b => (if b then "true" else "false").toList
  | .null => "null".toList
  | .arr xs => '[' :: (dumpsArr xs ++ [']'])
  | .obj fs => '\x7b' :: (dumpsObj fs ++ ['\x7d'])

/-- Array elements of `json.dumps`, joined by `", "`. -/
def dumpsArr : List JVal → List Char
  | [] => []
  | [x] => dumps x
  | x :: y :: xs => dumps x ++ ',' :: ' ' :: dumpsArr (y :: xs)

/-- Object fields of `json.dumps`, `"key": value` joined by `", "`. -/
def dumpsObj : List (List Char × JVal) → List Char
  | [] => []
  | [(k, v)] => dumpsStr k ++ ':' :: ' ' :: dumps v
  | (k, v) :: g :: fs => dumpsStr k ++ ':' :: ' ' :: dumps v ++ ',' :: ' ' :: dumpsObj (g :: fs)

end

mutual

/-- Python `repr` of a JSON-shaped value (containers printed with single
quotes, `True`/`False`/`None`; string escaping inside `repr` is not
modelled — no claim depends on it). -/
def pyRepr : JVal → List Char
  | .str s => '\'' :: (s ++ ['\''])
  | .num n => (toString n).toList
  | .bool b => (if b then "True" else "False").toList
  | .null => "None".toList
  | .arr xs => '[' :: (pyReprArr xs ++ [']'])
  | .obj fs => '\x7b' :: (pyReprObj fs ++ ['\x7d'])

/-- Elements of `repr` of a list, joined by `", "`. -/
def pyReprArr : List JVal → List Char
  | [] => []
  | [x] => pyRepr x
  | x :: y :: xs => pyRepr x ++ ',' :: ' ' :: pyReprArr (y :: xs)

/-- Fields of `repr` of a dict, joined by `", "`. -/
def pyReprObj : List (List Char × JVal) → List Char
  | [] => []
  | [(k, v)] => '\'' :: (k ++ '\'' :: ':' :: ' ' :: pyRepr v)
  | (k, v) :: g :: fs =>
      '\'' :: (k ++ '\'' :: ':' :: ' ' :: pyRepr v) ++ ',' :: ' ' :: pyReprObj (g :: fs)

end

/-- Python `str(v)`: the string itself for a string, `repr` otherwise. -/
def pyStr : JVal → List Char
  | .str s => s
  | v => pyRepr v

/-- `'k' in d` followed by `d['k']`: first binding of the key in a dict. -/
def getField (fs : List (List Char × JVal)) (k : List Char) : Option JVal :=
  (fs.find? (fun p => p.1 = k)).map (·.2)

/-- `d['k'] = v` on an existing key: replace the bound value in place,
preserving field order (Python dict keys are unique). -/
def setField (fs : List (List Char × JVal)) (k : List Char) (v : JVal) :
    List (List Char × JVal) :=
  fs.map (fun p => if p.1 = k then (p.1, v) else p)

/-! ## `main.py`: `truncate_large_result` (the ResultBounder) -/

/-- `MAX_FUNCTION_RESULT_SIZE = 4000` (`main.py`, line 73). -/
def MAX_FUNCTION_RESULT_SIZE : Nat := 4000

/-- The marker `'... (truncated for size)'` appended by the final hard
truncation (`main.py`, line 255); 24 characters. -/
def sizeMarker : List Char := "... (truncated for size)".toList

/-- Truncation of one message record inside the `'messages'` branch of
`truncate_large_result` (`main.py`, lines 234-242): a dict gets its
`'body'` field cut to 500 characters plus `'... (truncated)'` and its
`'snippet'` field cut to 200 characters plus `'...'`; anything that is
not a dict passes through unchanged. -/
def truncMsg (msg : JVal) : JVal :=
  match msg with
  | .obj fs =>
      let fs1 :=
        match getField fs "body".toList with
        | some b =>
            if 500 < (pyStr b).length then
              setField fs "body".toList
                (.str ((pyStr b).take 500 ++ "... (truncated)".toList))
            else fs
        | none => fs
      let fs2 :=
        match getField fs1 "snippet".toList with
        | some sn =>
            if 200 < (pyStr sn).length then
              setField fs1 "snippet".toList
                (.str ((pyStr sn).take 200 ++ "...".toList))
            else fs1
        | none => fs1
      .obj fs2
  | _ => msg

/-- The accumulation loop over `result['messages']` (`main.py`, lines
233-248): each truncated message is appended, then the size of
`json.dumps({'messages': truncated_messages})` is measured and the loop
breaks once it exceeds `max_size * 0.8` (written here as
`5 * current_size > 4 * max_size`; Python compares against the float
`max_size * 0.8`, which agrees with the exact 4/5 at the sizes in use).
Note the loop breaks only after appending the offending item. -/
def msgsLoop (max_size : Nat) : List JVal → List JVal → List JVal
  | [], acc => acc
  | m :: rest, acc =>
      let acc1 := acc ++ [truncMsg m]
      let current_size := (dumps (.obj [("messages".toList, .arr acc1)])).length
      if 4 * max_size < 5 * current_size then acc1
      else msgsLoop max_size rest acc1

/-- `truncate_large_result(result, max_size)` (`main.py`, lines 219-257):
serialize; return as-is when within budget; for a dict with a
`'messages'` list, truncate message bodies/snippets and accumulate until
the 80%-budget mark; finally, if still over budget, hard-truncate the
serialized string to `max_size` characters and append
`'... (truncated for size)'`. -/
def truncate_large_result (result : JVal) (max_size : Nat) : List Char :=
  let result_str := dumps result
  if result_str.length ≤ max_size then result_str
  else
    let result_str1 :=
      match result with
      | .obj fs =>
          match getField fs "messages".toList with
          | some (.arr msgs) =>
              let truncated_messages := msgsLoop max_size msgs []
              dumps (.obj (setField fs "messages".toList (.arr truncated_messages)))
          | _ => result_str
      | _ => result_str
    if max_size < result_str1.length then result_str1.take max_size ++ sizeMarker
    else result_str1

/-! ## `main.py`: `check_rate_limit` (the RateLimiter) -/

/-- `RATE_LIMIT_WINDOW_SIZE = 60` seconds (`main.py`, line 82). -/
def RATE_LIMIT_WINDOW_SIZE : ℚ := 60

/-- `check_rate_limit(user_id, limit_type, limit_per_minute)` for one
`(identity, category)` bucket (`main.py`, lines 181-197), acting on that
bucket's deque of admitted timestamps (oldest first, as the Python deque
is only ever appended on the right with the current time).  The `while
... popleft()` eviction of entries `< now - RATE_LIMIT_WINDOW_SIZE` is a
`dropWhile`; admission requires the remaining count to be strictly below
the ceiling and appends `now`; rejection records nothing.  Returns the
admission verdict and the updated deque. -/
def check_rate_limit (limit_per_minute : Nat) (now : ℚ) (dq : List ℚ) :
    Bool × List ℚ :=
  let limit_deque := dq.dropWhile (fun t => decide (t < now - RATE_LIMIT_WINDOW_SIZE))
  if limit_per_minute ≤ limit_deque.length then (false, limit_deque)
  else (true, limit_deque ++ [now])

/-- Repeated calls of `check_rate_limit` on one bucket at the given call
times, starting from a deque: returns the admitted call times (in order)
and the final deque.  This is the harness that quantifies over call
patterns; each step is exactly `check_rate_limit`. -/
def runCalls (limit : Nat) : List ℚ → List ℚ → List ℚ × List ℚ
  | [], dq => ([], dq)
  | t :: ts, dq =>
      let step := check_rate_limit limit t dq
      let rest := runCalls limit ts step.2
      ((if step.1 then [t] else []) ++ rest.1, rest.2)

/-! ## `realtime_proxy.py`: `_execute_function` (the function-call bridge) -/

/-- A message written to the upstream (OpenAI) socket by the bridge. -/
inductive UpMsg where
  /-- `conversation.item.create` carrying a `function_call_output` item
  with the given `call_id` and serialized `output` string. -/
  | functionOutput (call_id : String) (output : List Char)
  /-- `response.create` — the continuation request. -/
  | responseCreate
deriving DecidableEq

/-- Outcome of invoking a registered capability (the `await func(...)`
of `_execute_function`, lines 420-490): a result value, or an exception
carrying a message (argument-model validation errors, provider faults,
…). -/
inductive FnOutcome where
  | ok (result : JVal)
  | err (msg : List Char)

/-- Observable outcome of one `_execute_function` call: the upstream
messages sent (in order), the `pending_audio_response` flag afterwards,
and whether the emergency-timeout task was created. -/
structure ExecResult where
  sent : List UpMsg
  pending : Bool
  timerArmed : Bool
deriving DecidableEq

/-- The shared error path of `_execute_function` (`realtime_proxy.py`,
lines 548-566): any exception raised inside the `try` clears
`pending_audio_response` and sends `{"error": str(e)}` back through the
same `function_call_output` path; no continuation is requested and no
timer armed. -/
def execErrorPath (call_id : String) (e : List Char) : ExecResult :=
  { sent := [.functionOutput call_id (dumps (.obj [("error".toList, .str e)]))]
    pending := false
    timerArmed := false }

/-- `OpenAIRealtimeProxy._execute_function(call_id, function_name,
arguments)` (`realtime_proxy.py`, lines 414-566), with the library and
collaborator behavior supplied as parameters: `parseOutcome` is the
result of `json.loads(arguments)` (`.error e` when parsing raises, with
`e` the exception text), and `callOutcome` the outcome of dispatching to
the registered capability on the parsed arguments (covering the
argument-class construction and the awaited call, lines 420-490).  The
model assumes the upstream socket is open (`self.openai_ws` not None),
as on every reachable path of a live session.

Paths, as in the source:
* parse failure → the `except` branch (`execErrorPath`);
* registered name, call raises → the `except` branch;
* registered name, call returns → result bounded by
  `truncate_large_result(result, 4000)` and sent as a
  `function_call_output`; then, only if `pending_audio_response` is
  clear, it is set, one `response.create` is sent and the 10 s emergency
  timeout armed (lines 509-542) — otherwise the duplicate is skipped;
* unknown name → only `print(f"⚠️ Unknown function: ...")`
  (line 546): nothing is sent upstream and the flag is untouched. -/
def execute_function (gmail_functions : List String) (call_id : String)
    (function_name : String) (parseOutcome : Except (List Char) JVal)
    (callOutcome : JVal → FnOutcome) (pending_audio_response : Bool) :
    ExecResult :=
  match parseOutcome with
  | .error e => execErrorPath call_id e
  | .ok args =>
      if function_name ∈ gmail_functions then
        match callOutcome args with
        | .err e => execErrorPath call_id e
        | .ok result =>
            let result_str := truncate_large_result result MAX_FUNCTION_RESULT_SIZE
            if pending_audio_response then
              { sent := [.functionOutput call_id result_str]
                pending := pending_audio_response
                timerArmed := false }
            else
              { sent := [.functionOutput call_id result_str, .responseCreate]
                pending := true
                timerArmed := true }
      else
        { sent := [], pending := pending_audio_response, timerArmed := false }

/-! ## `realtime_proxy.py`: `handle_client_message` -/

/-- The allowlist of client message types forwarded verbatim upstream
(`realtime_proxy.py`, lines 215-221). -/
def forwardedClientTypes : List String :=
  ["input_audio_buffer.append", "input_audio_buffer.commit",
   "response.create", "conversation.item.create", "response.cancel"]

/-- `handle_client_message` (`realtime_proxy.py`, lines 210-249), as the
list of message types written to the upstream socket (assumed open):
allowlisted types are forwarded verbatim; after forwarding an
`input_audio_buffer.commit` the proxy itself additionally sends a fresh
`response.create` (push-to-talk, lines 229-236); a legacy `audio`
message is converted to `input_audio_buffer.append`; anything else is
only logged. -/
def handle_client_message (message_type : String) : List String :=
  if message_type ∈ forwardedClientTypes then
    if message_type = "input_audio_buffer.commit" then
      [message_type, "response.create"]
    else [message_type]
  else if message_type = "audio" then ["input_audio_buffer.append"]
  else []

/-! ## `realtime_proxy.py`: `_listen_to_openai` (reconnection loop) -/

/-- One observed failure of the inner receive loop: the upstream
connection closed (with the scripted outcome of the reconnection attempt
that `_listen_to_openai` would make next, i.e. of
`connect_to_openai()`), or any other exception. -/
inductive LEvent where
  | connClosed (reconnectSucceeds : Bool)
  | otherError
deriving DecidableEq

/-- Observable trace of `_listen_to_openai`'s retry machinery:
how many recovery `connect_to_openai()` attempts were made, how many
`setup_session()` re-configurations ran, the backoff sleeps issued (in
seconds, in order), and how many explicit failures were propagated
upward (exceptions re-raised or error events sent to the session/client
from this loop). -/
structure ListenTrace where
  reconnectAttempts : Nat
  configures : Nat
  sleeps : List Nat
  failuresPropagated : Nat
deriving DecidableEq

/-- The empty trace at loop entry. -/
def emptyTrace : ListenTrace :=
  { reconnectAttempts := 0, configures := 0, sleeps := [], failuresPropagated := 0 }

/-- `_listen_to_openai` (`realtime_proxy.py`, lines 587-632), driven by
the script of receive-loop failures.  `retry_count` starts at 0 and
`max_retries = 3`.  On `ConnectionClosed`: increment `retry_count`; if
still below `max_retries`, attempt `connect_to_openai()` — on success
run `setup_session()` and reset `retry_count` to 0, on failure sleep
`2 ** retry_count` seconds — and keep looping; otherwise print
`"❌ Failed to reconnect ..."` and `break`.  On any other exception:
print and `break`.  Neither `break` branch raises or notifies anyone
(lines 626-632 contain only `print` and `break`), so no branch
increments `failuresPropagated`.  An exhausted script means the loop is
still listening. -/
def listen_to_openai (max_retries : Nat) :
    List LEvent → Nat → ListenTrace → ListenTrace
  | [], _, acc => acc
  | e :: rest, retry_count, acc =>
      if retry_count < max_retries then
        match e with
        | .connClosed ok =>
            let rc := retry_count + 1
            if rc < max_retries then
              if ok then
                listen_to_openai max_retries rest 0
                  { acc with reconnectAttempts := acc.reconnectAttempts + 1,
                             configures := acc.configures + 1 }
              else
                listen_to_openai max_retries rest rc
                  { acc with reconnectAttempts := acc.reconnectAttempts + 1,
                             sleeps := acc.sleeps ++ [2 ^ rc] }
            else acc
        | .otherError => acc
      else acc

/-! ## `realtime_proxy.py`: pending-flag clearing
(`_emergency_timeout_reset` and the `response.done` handler) -/

/-- Events acting on the `pending_audio_response` flag after a function
result has been sent: the armed emergency timeout firing, or a
`response.done` (continuation completion) arriving from upstream. -/
inductive TEvent where
  | timeoutFires
  | responseDone
deriving DecidableEq

/-- Session state observed by the client: the flag, how many error
events were sent to the client, and how many times the flag was actually
cleared (a set → clear transition). -/
structure TState where
  pending : Bool
  errorsSent : Nat
  clears : Nat
deriving DecidableEq

/-- One event step.  `timeoutFires` is `_emergency_timeout_reset`
(`realtime_proxy.py`, lines 634-650): only if the flag is still set, it
clears it and sends exactly one error event (`"Response timeout -
please try again"`, `emergency_reset: True`) to the client; otherwise a
no-op.  `responseDone` is the `response.done` branch of
`handle_openai_message` (lines 306-341): it sets the flag to `False`
unconditionally (the attribute always exists) and sends no error
event — writing `False` over an already-clear flag is not a clearing
transition. -/
def stepT (s : TState) : TEvent → TState
  | .timeoutFires =>
      if s.pending then
        { pending := false, errorsSent := s.errorsSent + 1, clears := s.clears + 1 }
      else s
  | .responseDone =>
      if s.pending then
        { pending := false, errorsSent := s.errorsSent, clears := s.clears + 1 }
      else { s with pending := false }

/-- Run a sequence of events. -/
def runT (evs : List TEvent) (s : TState) : TState := evs.foldl stepT s

/-! ## `main.py`: `modify_labels` and `mark_read` -/

/-- `MAX_LABELS_OP = 100` (`main.py`, line 66). -/
def MAX_LABELS_OP : Nat := 100

/-- One `users().messages().batchModify` request body (`main.py`,
lines 711-715). -/
structure BatchModifyBody where
  ids : List String
  addLabelIds : List String
  removeLabelIds : List String
deriving DecidableEq

/-- The result dict of a successful `modify_labels` (`main.py`,
lines 724-728). -/
structure ModifyResult where
  modified : Nat
  added : List String
  removed : List String
deriving DecidableEq

/-- The batching `for i in range(0, len(msg_ids), 50)` of
`modify_labels` (`main.py`, lines 708-709): consecutive slices of at
most 50 ids. -/
def batches50 (msg_ids : List String) : List (List String) :=
  if h : msg_ids = [] then []
  else msg_ids.take 50 :: batches50 (msg_ids.drop 50)
termination_by msg_ids.length
decreasing_by
  simp only [List.length_drop]
  have : 0 < msg_ids.length := List.length_pos.mpr h
  omega

/-- `modify_labels(user_id, args)` (`main.py`, lines 698-730), with the
Gmail service abstracted as always accepting each `batchModify` request
(provider faults are out of the claims' scope): rejects more than
`MAX_LABELS_OP` ids with a `TOO_MANY_ITEMS` error; otherwise issues one
`batchModify` per batch of 50 with the given add/remove label lists,
accumulating `modified` by batch size, and returns the request bodies
together with the result dict. -/
def modify_labels (msg_ids add remove : List String) :
    Except String (List BatchModifyBody × ModifyResult) :=
  if MAX_LABELS_OP < msg_ids.length then
    .error "TOO_MANY_ITEMS: Maximum 100 messages per operation"
  else
    let bodies := (batches50 msg_ids).map
      (fun batch => BatchModifyBody.mk batch add remove)
    let modified := (batches50 msg_ids).foldl (fun n batch => n + batch.length) 0
    .ok (bodies, ModifyResult.mk modified add remove)

/-- `mark_read(user_id, args)` (`main.py`, lines 756-764): delegates to
`modify_labels` with `ModifyLabelsArgs(msg_ids=args.msg_ids,
remove=['UNREAD'])`, whose `add` field defaults to `[]` (`main.py`,
line 165). -/
def mark_read (msg_ids : List String) :
    Except String (List BatchModifyBody × ModifyResult) :=
  modify_labels msg_ids [] ["UNREAD"]

/-- Membership of a timestamp in the rolling window `[s, s + W]` of
width `RATE_LIMIT_WINDOW_SIZE` starting at `s` — the window predicate
the sliding-window claim quantifies over. -/
def inWindow (s t : ℚ) : Bool :=
  decide (s ≤ t) && decide (t ≤ s + RATE_LIMIT_WINDOW_SIZE)

/-! ## Theorems -/

/-- C9: for every client `input_audio_buffer.commit` (the push-to-talk
audio-commit), the proxy forwards the commit upstream and then itself
immediately sends a `response.create` request, rather than waiting for
automatic end-of-speech detection.  (The source does this for every
commit, hence in particular in manual push-to-talk mode.) -/
theorem commit_triggers_own_response_create :
    handle_client_message "input_audio_buffer.commit" =
      ["input_audio_buffer.commit", "response.create"] := by decide

/-- C10: `mark_read` is extensionally equal to `modify_labels` invoked
with the same message ids, an empty add-label list and remove-label list
exactly `['UNREAD']`; in particular every `batchModify` body it issues
has an empty `addLabelIds` and the result reports no added labels. -/
theorem mark_read_refines_modify_labels (msg_ids : List String) :
    mark_read msg_ids = modify_labels msg_ids [] ["UNREAD"]
    ∧ ∀ bodies res, mark_read msg_ids = .ok (bodies, res) →
        (∀ b ∈ bodies, b.addLabelIds = []) ∧ res.added = [] := by
  refine ⟨rfl, ?_⟩
  intro bodies res h
  unfold mark_read modify_labels at h
  by_cases hl : MAX_LABELS_OP < msg_ids.length
  · rw [if_pos hl] at h
    exact absurd h (by simp)
  · rw [if_neg hl] at h
    simp only [Except.ok.injEq, Prod.mk.injEq] at h
    obtain ⟨h1, h2⟩ := h
    subst h1
    subst h2
    refine ⟨?_, rfl⟩
    intro b hb
    simp only [List.mem_map] at hb
    obtain ⟨batch, -, rfl⟩ := hb
    rfl

/-- Witness for C10 at the concrete id list `["m1"]`. -/
theorem mark_read_refines_modify_labels_witness :
    (∀ b ∈ [BatchModifyBody.mk ["m1"] [] ["UNREAD"]],
        b.addLabelIds = ([] : List String))
    ∧ (ModifyResult.mk 1 [] ["UNREAD"]).added = ([] : List String) :=
  (mark_read_refines_modify_labels ["m1"]).2
    [BatchModifyBody.mk ["m1"] [] ["UNREAD"]] (ModifyResult.mk 1 [] ["UNREAD"])
    (by simp [mark_read, modify_labels, batches50, MAX_LABELS_OP])

/-- C2 (failing input): for a function call whose name is not in the
registry (here `delete_everything` against the six registered tools),
`_execute_function` sends nothing at all upstream — the `else` branch at
`realtime_proxy.py` line 546 only prints a warning — so no structured
error result is produced and the upstream is left waiting. -/
theorem exec_unknown_name_sends_nothing :
    execute_function
      ["count_unread_emails", "list_unread", "search_messages",
       "create_draft", "mark_read", "categorize_unread"]
      "call_1" "delete_everything" (.ok (JVal.obj [])) (fun _ => .ok JVal.null)
      false
    = { sent := [], pending := false, timerArmed := false } := by decide

/-- C8: for every function call whose raw argument string fails to parse
as JSON, the bridge produces a structured error result
`{"error": str(e)}` sent upstream through the same
`function_call_output` path as a successful result, requests no
continuation, and leaves the pending-response flag clear. -/
theorem exec_parse_failure_structured_error (gmail_functions : List String)
    (call_id function_name : String) (e : List Char)
    (callOutcome : JVal → FnOutcome) (pending : Bool) :
    (execute_function gmail_functions call_id function_name
        (.error e) callOutcome pending).sent
      = [UpMsg.functionOutput call_id
          (dumps (JVal.obj [("error".toList, JVal.str e)]))]
    ∧ (execute_function gmail_functions call_id function_name
        (.error e) callOutcome pending).pending = false := by
  exact ⟨rfl, rfl⟩

/-- C1: for every function call executed by the bridge, at most one
continuation (`response.create`) is requested: it is sent only when the
pending-response flag is clear, sending it sets the flag, and a
function-completion signal handled while the flag is already set sends
no continuation at all. -/
theorem exec_single_continuation (gmail_functions : List String)
    (call_id function_name : String) (parseOutcome : Except (List Char) JVal)
    (callOutcome : JVal → FnOutcome) (pending : Bool) :
    ((execute_function gmail_functions call_id function_name parseOutcome
        callOutcome pending).sent.count UpMsg.responseCreate ≤ 1)
    ∧ (pending = true →
        (execute_function gmail_functions call_id function_name parseOutcome
          callOutcome pending).sent.count UpMsg.responseCreate = 0)
    ∧ ((execute_function gmail_functions call_id function_name parseOutcome
          callOutcome pending).sent.count UpMsg.responseCreate = 1 →
        (execute_function gmail_functions call_id function_name parseOutcome
          callOutcome pending).pending = true) := by
  rcases parseOutcome with e | args
  · simp [execute_function, execErrorPath, List.count_cons, List.count_nil]
  · by_cases hf : function_name ∈ gmail_functions
    · rcases hc : callOutcome args with result | e
      · by_cases hp : pending <;>
          simp [execute_function, hf, hc, hp, List.count_cons, List.count_nil]
      · simp [execute_function, execErrorPath, hf, hc,
          List.count_cons, List.count_nil]
    · simp [execute_function, hf, List.count_nil]

/-- Witness for C1: with the flag already set, a completed `mark_read`
call sends no continuation. -/
theorem exec_single_continuation_witness :
    (execute_function ["mark_read"] "c1" "mark_read"
        (.ok (JVal.obj [])) (fun _ => FnOutcome.ok JVal.null)
        true).sent.count UpMsg.responseCreate = 0 :=
  (exec_single_continuation ["mark_read"] "c1" "mark_read"
    (.ok (JVal.obj [])) (fun _ => FnOutcome.ok JVal.null) true).2.1 rfl

/-- Any all-`response.done` suffix leaves an already-cleared state
untouched: the flag stays clear, no further error event is sent, and no
further set→clear transition happens. -/
theorem runT_responseDone_noop (evs : List TEvent)
    (h : ∀ e ∈ evs, e = TEvent.responseDone) (n m : Nat) :
    runT evs ⟨false, n, m⟩ = ⟨false, n, m⟩ := by
  induction evs with
  | nil => rfl
  | cons e t ih =>
    have he : e = TEvent.responseDone := h e (List.mem_cons_self e t)
    subst he
    have hs : stepT ⟨false, n, m⟩ TEvent.responseDone = ⟨false, n, m⟩ := rfl
    simp only [runT, List.foldl_cons, hs]
    exact ih (fun e he => h e (List.mem_cons_of_mem _ he))

/-- C7: if the emergency timeout fires while the pending-response flag is
still set (no continuation completed within the configured duration),
the flag is cleared exactly once and exactly one error event is sent to
the client; every continuation (`response.done`) arriving afterwards is
a no-op with respect to the flag — no second clearing and no second
error event. -/
theorem emergency_timeout_exactly_once (evs : List TEvent)
    (h : ∀ e ∈ evs, e = TEvent.responseDone) :
    runT (TEvent.timeoutFires :: evs) ⟨true, 0, 0⟩ = ⟨false, 1, 1⟩ := by
  have hs : stepT ⟨true, 0, 0⟩ TEvent.timeoutFires = ⟨false, 1, 1⟩ := rfl
  simp only [runT, List.foldl_cons, hs]
  exact runT_responseDone_noop evs h 1 1

/-- Witness for C7: timeout fires, then two late continuations arrive. -/
theorem emergency_timeout_exactly_once_witness :
    runT [TEvent.timeoutFires, TEvent.responseDone, TEvent.responseDone]
      ⟨true, 0, 0⟩ = ⟨false, 1, 1⟩ :=
  emergency_timeout_exactly_once [TEvent.responseDone, TEvent.responseDone]
    (by decide)

/-- The retry machinery of `_listen_to_openai` never propagates a
failure upward: no branch of the loop raises or notifies — the
exhausted-retries branch and the generic-exception branch only print
and `break`. -/
theorem listen_no_propagation :
    ∀ (script : List LEvent) (rc : Nat) (acc : ListenTrace),
      (listen_to_openai 3 script rc acc).failuresPropagated =
        acc.failuresPropagated := by
  intro script
  induction script with
  | nil => intro rc acc; rfl
  | cons e rest ih =>
    intro rc acc
    by_cases h : rc < 3
    · rcases e with ok | _
      · by_cases h2 : rc + 1 < 3
        · cases ok <;> simp [listen_to_openai, h, h2, ih]
        · simp [listen_to_openai, h, h2]
      · simp [listen_to_openai, h]
    · simp [listen_to_openai, h]

/-- Against a streak of closures whose reconnection attempts all fail,
the loop makes `min n 2` recovery attempts (never 3), sleeping
`2 ** retry_count` seconds after each failed attempt. -/
theorem listen_allfail (n : Nat) :
    (listen_to_openai 3 (List.replicate n (LEvent.connClosed false)) 0
        emptyTrace).reconnectAttempts = min n 2
    ∧ (listen_to_openai 3 (List.replicate n (LEvent.connClosed false)) 0
        emptyTrace).sleeps = [2, 4].take n := by
  match n with
  | 0 => exact ⟨rfl, rfl⟩
  | 1 => exact ⟨rfl, rfl⟩
  | 2 => exact ⟨rfl, rfl⟩
  | k + 3 =>
    have h : listen_to_openai 3
        (List.replicate (k + 3) (LEvent.connClosed false)) 0 emptyTrace
        = { reconnectAttempts := 2, configures := 0, sleeps := [2, 4],
            failuresPropagated := 0 } := rfl
    rw [h]
    refine ⟨by simp, ?_⟩
    have hlen : ([2, 4] : List Nat).length ≤ k + 3 := by simp
    rw [List.take_of_length_le hlen]

/-- A successful reconnection re-runs `setup_session` and resets the
retry counter to zero. -/
theorem listen_reset_on_success (script : List LEvent) (acc : ListenTrace) :
    listen_to_openai 3 (LEvent.connClosed true :: script) 0 acc =
      listen_to_openai 3 script 0
        { acc with reconnectAttempts := acc.reconnectAttempts + 1,
                   configures := acc.configures + 1 } := rfl

/-- C6 (failing input): three consecutive unexpected closures with the
first two reconnection attempts failing.  The third closure is answered
by no reconnection attempt at all (only 2 attempts are ever made, not
3 — even though a third attempt would have succeeded), and the listener
stops with no explicit failure propagated upward: `reconnectAttempts =
2`, `failuresPropagated = 0`. -/
theorem listen_retry_counterexample :
    listen_to_openai 3
        [LEvent.connClosed false, LEvent.connClosed false,
         LEvent.connClosed true] 0 emptyTrace
      = { reconnectAttempts := 2, configures := 0, sleeps := [2, 4],
          failuresPropagated := 0 } := by decide

/-- C6 (amended): on unexpected closure the listener retries
reconnection at most 2 times per failure streak (the loop is bounded by
3 observed closures, `max_retries = 3`), sleeping `2 ** attempt` seconds
after each failed attempt; a successful reconnection re-runs
`connect` then `configure` and resets the retry counter to zero; when
the retries are exhausted the listener only logs and stops — no failure
is ever propagated upward. -/
theorem listen_reconnect_amended :
    (∀ (script : List LEvent) (rc : Nat) (acc : ListenTrace),
        (listen_to_openai 3 script rc acc).failuresPropagated =
          acc.failuresPropagated)
    ∧ (∀ n : Nat,
        (listen_to_openai 3 (List.replicate n (LEvent.connClosed false)) 0
            emptyTrace).reconnectAttempts = min n 2
        ∧ (listen_to_openai 3 (List.replicate n (LEvent.connClosed false)) 0
            emptyTrace).sleeps = [2, 4].take n)
    ∧ (∀ (script : List LEvent) (acc : ListenTrace),
        listen_to_openai 3 (LEvent.connClosed true :: script) 0 acc =
          listen_to_openai 3 script 0
            { acc with reconnectAttempts := acc.reconnectAttempts + 1,
                       configures := acc.configures + 1 }) :=
  ⟨listen_no_propagation, listen_allfail, listen_reset_on_success⟩

/-- The bounder's output never exceeds the budget plus the 24-character
truncation marker. -/
theorem truncate_length_le (p : JVal) (m : Nat) :
    (truncate_large_result p m).length ≤ m + sizeMarker.length := by
  simp only [truncate_large_result]
  by_cases h : (dumps p).length ≤ m
  · rw [if_pos h]; omega
  · rw [if_neg h]
    split
    · next h2 => rw [List.length_append, List.length_take]; omega
    · next h2 => omega

/-- A payload whose serialization is within budget is returned as-is. -/
theorem truncate_within (p : JVal) (m : Nat) (h : (dumps p).length ≤ m) :
    truncate_large_result p m = dumps p := by
  simp only [truncate_large_result]
  rw [if_pos h]

/-- Escaping a run of plain characters is the identity. -/
theorem escape_replicate_a (n : Nat) :
    escape (List.replicate n 'a') = List.replicate n 'a' := by
  induction n with
  | zero => rfl
  | succ k ih =>
    rw [List.replicate_succ]
    simp only [escape, List.flatMap_cons] at *
    rw [ih]
    rfl

/-- The over-budget, non-structured path: a serialized string payload
that exceeds the budget is hard-truncated to `max_size` characters with
the marker appended. -/
theorem truncate_hard_str (s : List Char) (m : Nat)
    (h : m < (dumps (JVal.str s)).length) :
    truncate_large_result (JVal.str s) m =
      (dumps (JVal.str s)).take m ++ sizeMarker := by
  simp only [truncate_large_result]
  rw [if_neg (by omega), if_pos h]

/-- C4 (failing input): a 4000-character string payload bounded to the
fixed `MAX_FUNCTION_RESULT_SIZE = 4000` budget.  Its serialization is
4002 characters, so the hard truncation cuts it to 4000 and appends the
24-character marker: the returned string is 4024 characters — it does
not fit within `maxBytes` and exceeds the fixed maximum payload size of
4000 bytes. -/
theorem truncate_exceeds_budget_counterexample :
    (truncate_large_result (JVal.str (List.replicate 4000 'a')) 4000).length
      = 4024
    ∧ 4000 <
      (truncate_large_result (JVal.str (List.replicate 4000 'a')) 4000).length := by
  have hd : dumps (JVal.str (List.replicate 4000 'a'))
      = '"' :: (List.replicate 4000 'a' ++ ['"']) := by
    show dumpsStr (List.replicate 4000 'a') = _
    unfold dumpsStr
    rw [escape_replicate_a]
  have hlen : (dumps (JVal.str (List.replicate 4000 'a'))).length = 4002 := by
    rw [hd, List.length_cons, List.length_append, List.length_replicate,
      List.length_singleton]
  have hmark : sizeMarker.length = 24 := rfl
  have hh := truncate_hard_str (List.replicate 4000 'a') 4000 (by omega)
  rw [hh, List.length_append, List.length_take, hlen, hmark]
  omega

/-- C4 (amended): for every payload and byte budget, a payload whose
serialization is within `maxBytes` is returned as-is; an over-budget
payload is truncated — hard-truncation cuts the serialized string to
`maxBytes` and appends the 24-character marker — so the total never
exceeds `maxBytes` plus the marker length (4024 for the fixed 4000-byte
budget), though it can exceed `maxBytes` itself. -/
theorem truncate_bound_amended (p : JVal) (m : Nat) :
    ((dumps p).length ≤ m → truncate_large_result p m = dumps p)
    ∧ (truncate_large_result p m).length ≤ m + sizeMarker.length :=
  ⟨truncate_within p m, truncate_length_le p m⟩

/-- Witness for C4 (amended) at the two-character payload `"hi"` with
budget 10. -/
theorem truncate_bound_amended_witness :
    truncate_large_result (JVal.str ['h', 'i']) 10 = dumps (JVal.str ['h', 'i'])
    ∧ (truncate_large_result (JVal.str ['h', 'i']) 10).length
        ≤ 10 + sizeMarker.length :=
  ⟨(truncate_bound_amended (JVal.str ['h', 'i']) 10).1 (by decide),
   (truncate_bound_amended (JVal.str ['h', 'i']) 10).2⟩

/-- C5 (failing input): `bound(bound(p, m), m) ≠ bound(p, m)` already
for the one-character payload `"x"` and the fixed 4000-byte budget:
bounding returns the serialized string `"x"` (with quotes), and
re-bounding that string re-serializes it — quoting and escaping it
again — rather than being a no-op. -/
theorem truncate_not_idempotent :
    truncate_large_result
        (JVal.str (truncate_large_result (JVal.str ['x']) 4000)) 4000
      ≠ truncate_large_result (JVal.str ['x']) 4000 := by decide

/-- C5 (amended): the bound operation is deterministic (it is a pure
function of the payload and budget) and size-stable — its output never
exceeds `maxBytes` plus the 24-character marker, and re-bounding an
already-bounded payload, while not a no-op (the bounded string is
re-serialized as a JSON string), is bounded by the same limit. -/
theorem truncate_rebound_bounded (p : JVal) (m : Nat) :
    (truncate_large_result p m).length ≤ m + sizeMarker.length
    ∧ (truncate_large_result (JVal.str (truncate_large_result p m)) m).length
        ≤ m + sizeMarker.length :=
  ⟨truncate_length_le p m,
   truncate_length_le (JVal.str (truncate_large_result p m)) m⟩

/-- On a sorted deque, the eviction `dropWhile (< c)` is the filter
keeping entries `≥ c`. -/
theorem dropWhile_lt_eq_filter (c : ℚ) (l : List ℚ) (hl : l.Sorted (· ≤ ·)) :
    l.dropWhile (fun t => decide (t < c)) = l.filter (fun t => decide (c ≤ t)) := by
  induction l with
  | nil => rfl
  | cons a t ih =>
    rw [List.sorted_cons] at hl
    obtain ⟨ha, ht⟩ := hl
    by_cases h : a < c
    · rw [List.dropWhile_cons_of_pos (by simpa using h),
        List.filter_cons_of_neg (by simpa using not_le.mpr h)]
      exact ih ht
    · rw [List.dropWhile_cons_of_neg (by simpa using h),
        List.filter_cons_of_pos (by simpa using not_lt.mp h)]
      refine congrArg (a :: ·) ?_
      exact (List.filter_eq_self.mpr
        (fun x hx => by simpa using le_trans (not_lt.mp h) (ha x hx))).symm

/-- A pointwise-stronger filter keeps at most as many elements. -/
theorem length_filter_le_of_imp (l : List ℚ) (p q : ℚ → Bool)
    (h : ∀ a ∈ l, p a = true → q a = true) :
    (l.filter p).length ≤ (l.filter q).length := by
  induction l with
  | nil => simp
  | cons a t ih =>
    have ht : ∀ x ∈ t, p x = true → q x = true :=
      fun x hx => h x (List.mem_cons_of_mem _ hx)
    by_cases hp : p a = true
    · rw [List.filter_cons_of_pos hp,
        List.filter_cons_of_pos (h a (List.mem_cons_self a t) hp)]
      simpa using ih ht
    · rw [List.filter_cons_of_neg (by simpa using hp)]
      by_cases hq : q a = true
      · rw [List.filter_cons_of_pos hq]
        exact le_trans (ih ht) (by simp)
      · rw [List.filter_cons_of_neg (by simpa using hq)]
        exact ih ht

/-- Invariant of the admission loop: starting from a deque that holds
exactly the previously admitted timestamps still inside the window, and
an admitted history that satisfies the window bound, any further
nondecreasing call sequence preserves the bound: every rolling window
`[s, s + W]` contains at most `limit` admitted timestamps. -/
theorem runCalls_window_bound (limit : Nat) :
    ∀ (calls : List ℚ) (A : List ℚ) (c : ℚ),
      calls.Sorted (· ≤ ·) →
      (∀ t ∈ calls, c ≤ t) →
      A.Sorted (· ≤ ·) →
      (∀ a ∈ A, a ≤ c) →
      (∀ s, (A.filter (inWindow s)).length ≤ limit) →
      ∀ s, (List.filter (inWindow s)
          (A ++ (runCalls limit calls
            (A.filter (fun a => decide (c - RATE_LIMIT_WINDOW_SIZE ≤ a)))).1)).length
        ≤ limit := by
  intro calls
  induction calls with
  | nil =>
    intro A c _ _ _ _ hP s
    simpa [runCalls] using hP s
  | cons t ts ih =>
    intro A c hsort hge hA hle hP s
    rw [List.sorted_cons] at hsort
    obtain ⟨hts, hsorted⟩ := hsort
    have hct : c ≤ t := hge t (List.mem_cons_self t ts)
    -- the evicted deque at time t is exactly the admitted entries ≥ t - W
    have hdq : (A.filter
          (fun a => decide (c - RATE_LIMIT_WINDOW_SIZE ≤ a))).dropWhile
            (fun x => decide (x < t - RATE_LIMIT_WINDOW_SIZE))
        = A.filter (fun a => decide (t - RATE_LIMIT_WINDOW_SIZE ≤ a)) := by
      rw [dropWhile_lt_eq_filter _ _ (List.Pairwise.filter _ hA),
        List.filter_filter]
      refine List.filter_congr ?_
      intro a _
      by_cases hx : t - RATE_LIMIT_WINDOW_SIZE ≤ a
      · have : c - RATE_LIMIT_WINDOW_SIZE ≤ a := by linarith
        simp [hx, this]
      · simp [hx]
    by_cases hadm : limit ≤ (A.filter
        (fun a => decide (t - RATE_LIMIT_WINDOW_SIZE ≤ a))).length
    · -- rejected: nothing recorded
      have hstep : (runCalls limit (t :: ts)
            (A.filter (fun a => decide (c - RATE_LIMIT_WINDOW_SIZE ≤ a)))).1
          = (runCalls limit ts
            (A.filter (fun a => decide (t - RATE_LIMIT_WINDOW_SIZE ≤ a)))).1 := by
        simp only [runCalls, check_rate_limit, hdq, if_pos hadm]
        simp
      rw [hstep]
      exact ih A t hsorted hts hA (fun a ha => le_trans (hle a ha) hct) hP s
    · -- admitted: t is recorded
      have htW : (decide (t - RATE_LIMIT_WINDOW_SIZE ≤ t)) = true := by
        have h60 : RATE_LIMIT_WINDOW_SIZE = 60 := rfl
        simp only [decide_eq_true_eq, h60]
        linarith
      have happ : (A ++ [t]).filter
            (fun a => decide (t - RATE_LIMIT_WINDOW_SIZE ≤ a))
          = A.filter (fun a => decide (t - RATE_LIMIT_WINDOW_SIZE ≤ a)) ++ [t] := by
        rw [List.filter_append]
        have h60 : (0 : ℚ) ≤ RATE_LIMIT_WINDOW_SIZE := by
          norm_num [RATE_LIMIT_WINDOW_SIZE]
        simp [htW, h60]
      have hstep : (runCalls limit (t :: ts)
            (A.filter (fun a => decide (c - RATE_LIMIT_WINDOW_SIZE ≤ a)))).1
          = t :: (runCalls limit ts
            ((A ++ [t]).filter (fun a => decide (t - RATE_LIMIT_WINDOW_SIZE ≤ a)))).1 := by
        rw [happ]
        simp only [runCalls, check_rate_limit, hdq, if_neg hadm]
        simp
      have hsplit : A ++ t :: (runCalls limit ts
            ((A ++ [t]).filter (fun a => decide (t - RATE_LIMIT_WINDOW_SIZE ≤ a)))).1
          = (A ++ [t]) ++ (runCalls limit ts
            ((A ++ [t]).filter (fun a => decide (t - RATE_LIMIT_WINDOW_SIZE ≤ a)))).1 := by
        simp
      rw [hstep, hsplit]
      refine ih (A ++ [t]) t hsorted hts ?_ ?_ ?_ s
      · -- sortedness of A ++ [t]
        rw [List.Sorted, List.pairwise_append]
        refine ⟨hA, List.pairwise_singleton _ _, ?_⟩
        intro a ha b hb
        rw [List.mem_singleton] at hb
        rw [hb]
        exact le_trans (hle a ha) hct
      · intro a ha
        rcases List.mem_append.mp ha with h1 | h1
        · exact le_trans (hle a h1) hct
        · rw [List.mem_singleton] at h1
          exact h1.le
      · -- the window bound still holds after recording t
        intro s'
        rw [List.filter_append]
        by_cases hw : inWindow s' t = true
        · have h1 : ([t].filter (inWindow s')) = [t] := by simp [hw]
          rw [h1, List.length_append]
          have h2 : (A.filter (inWindow s')).length ≤
              (A.filter (fun a => decide (t - RATE_LIMIT_WINDOW_SIZE ≤ a))).length := by
            refine length_filter_le_of_imp A _ _ ?_
            intro a _ hain
            simp only [inWindow, Bool.and_eq_true, decide_eq_true_eq] at hain
            simp only [decide_eq_true_eq]
            simp only [inWindow, Bool.and_eq_true, decide_eq_true_eq] at hw
            linarith [hain.1, hain.2, hw.1, hw.2]
          simp only [List.length_singleton]
          omega
        · have h1 : ([t].filter (inWindow s')) = [] := by
            simp [List.filter_cons, hw]
          rw [h1, List.append_nil]
          exact hP s'

/-- C3: for every bucket (identity and category) and every nondecreasing
sequence of call times — bursty or steady — the rate-limit check first
evicts timestamps older than `now - RATE_LIMIT_WINDOW_SIZE`, then admits
and records the current time if and only if the remaining count is
strictly below the ceiling, and rejects without recording otherwise;
consequently at most the configured ceiling of calls is admitted within
any rolling window of width `RATE_LIMIT_WINDOW_SIZE`. -/
theorem rate_limit_sliding_window (limit : Nat) (now : ℚ) (dq : List ℚ) :
    ((check_rate_limit limit now dq).1 = true ↔
      (dq.dropWhile (fun t => decide (t < now - RATE_LIMIT_WINDOW_SIZE))).length
        < limit)
    ∧ ((check_rate_limit limit now dq).1 = true →
        (check_rate_limit limit now dq).2 =
          dq.dropWhile (fun t => decide (t < now - RATE_LIMIT_WINDOW_SIZE)) ++ [now])
    ∧ ((check_rate_limit limit now dq).1 = false →
        (check_rate_limit limit now dq).2 =
          dq.dropWhile (fun t => decide (t < now - RATE_LIMIT_WINDOW_SIZE)))
    ∧ (∀ calls : List ℚ, calls.Sorted (· ≤ ·) →
        ∀ s : ℚ,
          ((runCalls limit calls []).1.filter (inWindow s)).length ≤ limit) := by
  refine ⟨?_, ?_, ?_, ?_⟩
  · simp only [check_rate_limit]
    by_cases h : limit ≤
        (dq.dropWhile (fun t => decide (t < now - RATE_LIMIT_WINDOW_SIZE))).length
    · simp [h]
    · simp [h]
      omega
  · simp only [check_rate_limit]
    by_cases h : limit ≤
        (dq.dropWhile (fun t => decide (t < now - RATE_LIMIT_WINDOW_SIZE))).length
    · simp [h]
    · simp [h]
  · simp only [check_rate_limit]
    by_cases h : limit ≤
        (dq.dropWhile (fun t => decide (t < now - RATE_LIMIT_WINDOW_SIZE))).length
    · simp [h]
    · simp [h]
  · intro calls hsort s
    cases calls with
    | nil => simp [runCalls]
    | cons t ts =>
      have hts : ∀ u ∈ t :: ts, t ≤ u := by
        intro u hu
        rcases List.mem_cons.mp hu with h | h
        · rw [h]
        · rw [List.sorted_cons] at hsort
          exact hsort.1 u h
      have hmain := runCalls_window_bound limit (t :: ts) [] t hsort hts
        List.sorted_nil (by simp) (by simp) s
      simpa using hmain

/-- Witness for C3: ceiling 2, calls at times 0, 1, 2 — the third call
is rejected and the window starting at 0 holds 2 admitted calls. -/
theorem rate_limit_sliding_window_witness :
    ((runCalls 2 [(0 : ℚ), 1, 2] []).1.filter (inWindow 0)).length ≤ 2 :=
  (rate_limit_sliding_window 2 0 []).2.2.2 [0, 1, 2]
    (by norm_num [List.sorted_cons]) 0
